import Mathlib

/-!
# Verification of the PD cluster core (heartbeat path, store lifecycle,
# balance-region scheduler, schedule-config validation)

This file is a shallow embedding, in Lean 4, of the parts of the repository
that the verified claims talk about:

* `server/cluster.go` — `RaftCluster.processRegionHeartbeat`,
  `handleStoreHeartbeat`, `putStore`, `RemoveStore`, `BuryStore`,
  `SetStoreState`, `putStoreLocked`;
* `server/config/config.go` — `ScheduleConfig.Validate`;
* `server/schedulers/balance_region.go` — `balanceRegionScheduler.Schedule`,
  `scheduleImpl`, `transferPeer`, and the `hitsStoreBuilder` cooldown
  (`filter` / `put` / `remove`).

Machine integers (`uint64`, `int64`) are modelled as `Nat` / `Int` (no
arithmetic in the translated code can overflow: the code only compares and
counts).  Byte-string region keys are `List Nat` under lexicographic order,
with the empty end key standing for +infinity exactly as in the Go code.
Go functions that return an `error` are modelled as functions returning an
`Option` error code paired with the (possibly unchanged) cluster state;
returning `some e` corresponds to the Go function returning early with an
error, which never mutates the receiver.

Collaborator packages that are not part of the two source files
(`server/core`, `server/schedule`, external clocks and randomness) are
modelled either from the specification (each such definition carries a
doc comment saying so) or as explicit oracle parameters (randomness, the
external scheduler registry, the selector and replica checker), so that the
control flow written in the two source files is embedded verbatim.
-/

set_option autoImplicit false

/-! ## Byte-string keys -/

/-- Lexicographic strict order on byte strings (Go `bytes.Compare(a,b) < 0`). -/
def bytesLt : List Nat → List Nat → Bool
  | _, [] => false
  | [], _ :: _ => true
  | a :: as, b :: bs => if a < b then true else if b < a then false else bytesLt as bs

/-- `k` lies strictly before the end key `e`; an empty end key is +infinity. -/
def beforeEnd (k e : List Nat) : Bool :=
  e.isEmpty || bytesLt k e

/-! ## Region data model (`metapb.Region` + `core.RegionInfo`) -/

structure RegionEpoch where
  version : Nat
  confVer : Nat
  deriving Repr, DecidableEq

structure Peer where
  id : Nat
  storeId : Nat
  deriving Repr, DecidableEq

/-- The fields of `core.RegionInfo` read by the heartbeat path.  A missing
leader is represented by a `Peer` with `id = 0`, matching the nil-tolerant
protobuf getters (`region.GetLeader().GetId()` is `0` for a nil leader). -/
structure RegionInfo where
  id : Nat
  startKey : List Nat
  endKey : List Nat
  epoch : RegionEpoch
  leader : Peer
  peers : List Peer
  downPeers : List Peer
  pendingPeers : List Peer
  approximateSize : Int
  approximateKeys : Int
  bytesWritten : Nat
  bytesRead : Nat
  keysWritten : Nat
  keysRead : Nat
  deriving Repr, DecidableEq

/-- Two regions' half-open key ranges `[startKey, endKey)` intersect. -/
def regionsOverlap (a b : RegionInfo) : Bool :=
  beforeEnd a.startKey b.endKey && beforeEnd b.startKey a.endKey

/-! ## Store data model (`metapb.Store` + `core.StoreInfo`) -/

inductive StoreState
  | up
  | offline
  | tombstone
  deriving Repr, DecidableEq

/-- `metapb.StoreType`.  The proto enum is open, so a value other than the
two named ones is representable (`other`). -/
inductive StoreType
  | performance
  | storage
  | other
  deriving Repr, DecidableEq

/-- The meta part of a store (`metapb.Store`).  The version string is
modelled already parsed: `none` stands for a string `ParseVersion` rejects,
`some v` for a parseable version.  (`ParseVersion` itself lives outside the
source files.) -/
structure StoreMeta where
  id : Nat
  address : String
  version : Option Nat
  state : StoreState
  labels : List (String × String)
  storeType : StoreType
  deriving Repr, DecidableEq

/-- A store-heartbeat statistics sample (`pdpb.StoreStats`): the heartbeat
path reads only the store id and swaps the rest wholesale. -/
structure StoreStats where
  statsStoreId : Nat
  capacity : Nat
  available : Nat
  statsBytesWritten : Nat
  deriving Repr, DecidableEq

/-- `core.StoreInfo`: the meta plus the runtime fields. -/
structure Store where
  meta : StoreMeta
  stats : StoreStats
  lastHeartbeatTS : Nat
  blocked : Bool
  leaderWeight : Rat
  regionWeight : Rat
  leaderCount : Nat
  regionCount : Nat
  pendingPeerCount : Nat
  leaderSize : Int
  regionSize : Int
  deriving Repr, DecidableEq

/-- `core.NewStoreInfo`: wrap a meta with zeroed runtime fields. -/
def newStoreInfo (m : StoreMeta) : Store :=
  { meta := m
    stats := ⟨0, 0, 0, 0⟩
    lastHeartbeatTS := 0
    blocked := false
    leaderWeight := 0
    regionWeight := 0
    leaderCount := 0
    regionCount := 0
    pendingPeerCount := 0
    leaderSize := 0
    regionSize := 0 }

/-! ## The cluster state (`RaftCluster` + `core.BasicCluster` + storage) -/

/-- A hot-cache item handed back by `CheckWrite` / `CheckRead`
(`statistics.HotPeerStat`); the heartbeat path only forwards these to
`hotSpotCache.Update`, so only identity matters here. -/
structure HotItem where
  hotRegionId : Nat
  hotStoreId : Nat
  deriving Repr, DecidableEq

/-- The mutable cluster state owned by `RaftCluster`: the in-memory caches
(`stores`, `regions`), the metadata store contents (`storeStorage`,
`regionStorage`), the rolling store-stats registry, the `StoresStats`
observation log, the hot-cache update log and the prepare-checker log, plus
the configuration the embedded operations read. -/
structure ClusterState where
  stores : List Store
  regions : List RegionInfo
  storeStorage : List StoreMeta
  regionStorage : List RegionInfo
  rolling : List Nat
  observations : List (Nat × StoreStats)
  hotUpdates : List HotItem
  prepared : List Nat
  clusterVersion : Nat
  locationLabels : List String
  strictlyMatchLabel : Bool
  deriving Repr, DecidableEq

/-- Point lookup by store id (`core.BasicCluster.GetStore`). -/
def findStore (stores : List Store) (id : Nat) : Option Store :=
  stores.find? (fun s => s.meta.id == id)

/-- Point lookup by region id (`core.BasicCluster.GetRegion`). -/
def findRegion (regions : List RegionInfo) (id : Nat) : Option RegionInfo :=
  regions.find? (fun r => r.id == id)

/-- `core.BasicCluster.PutStore`: replace the entry with the same id, or
append a new one (map-assignment semantics). -/
def putStoreList : List Store → Store → List Store
  | [], st => [st]
  | t :: ts, st => if t.meta.id = st.meta.id then st :: ts else t :: putStoreList ts st

/-- `core.Storage.SaveStore`: map-assignment by id on the persisted metas. -/
def putStoreMetaList : List StoreMeta → StoreMeta → List StoreMeta
  | [], m => [m]
  | t :: ts, m => if t.id = m.id then m :: ts else t :: putStoreMetaList ts m

/-- `core.Storage.SaveRegion`: map-assignment by id on the persisted metas. -/
def saveRegionStorage : List RegionInfo → RegionInfo → List RegionInfo
  | [], r => [r]
  | t :: ts, r => if t.id = r.id then r :: ts else t :: saveRegionStorage ts r

/-- `core.Storage.DeleteRegion`. -/
def deleteRegionStorage (l : List RegionInfo) (id : Nat) : List RegionInfo :=
  l.filter (fun r => r.id ≠ id)

/-- `core.BasicCluster.GetOverlaps(region)`: the cached regions whose key
range intersects the incoming region's range. -/
def getOverlaps (regions : List RegionInfo) (r : RegionInfo) : List RegionInfo :=
  regions.filter (fun x => regionsOverlap r x)

/-- `(version, conf_ver)` lexicographic strict order on epochs. -/
def epochLt (a b : RegionEpoch) : Bool :=
  a.version < b.version || (a.version == b.version && a.confVer < b.confVer)

/-- Modelled from the spec: `core.BasicCluster.PutRegion` is not under
`src/`.  Spec §4.1: "`put_region(r)` returns the list of *overlapping*
regions it evicted: all regions whose range intersects `r.range` and whose
`(version, conf_ver)` is strictly less than `r`'s."  The entry with `r`'s
own id is replaced.  Returns `(evicted, new region list)`. -/
def putRegionM (regions : List RegionInfo) (r : RegionInfo) :
    List RegionInfo × List RegionInfo :=
  let evicted := regions.filter
    (fun x => x.id ≠ r.id && regionsOverlap r x && epochLt x.epoch r.epoch)
  let kept := regions.filter
    (fun x => x.id ≠ r.id && !(regionsOverlap r x && epochLt x.epoch r.epoch))
  (evicted, kept ++ [r])

/-- Modelled from the spec: `core.BasicCluster.UpdateStoreStatus` (called
through `RaftCluster.updateStoreStatusLocked`, which recomputes the derived
counters from the region index) is not under `src/`.  Spec §3: "leader/region
counters equal the actual count of leader/peer entries referencing this store
in the region index." -/
def updateStoreStatus (s : ClusterState) (id : Nat) : ClusterState :=
  match findStore s.stores id with
  | none => s
  | some st =>
    let mine := s.regions.filter (fun r => r.peers.any (fun p => p.storeId == id))
    let leaders := s.regions.filter (fun r => r.leader.storeId == id && r.leader.id != 0)
    let pending := s.regions.filter (fun r => r.pendingPeers.any (fun p => p.storeId == id))
    let st' := { st with
      leaderCount := leaders.length
      regionCount := mine.length
      pendingPeerCount := pending.length
      leaderSize := (leaders.map (fun r => r.approximateSize)).sum
      regionSize := (mine.map (fun r => r.approximateSize)).sum }
    { s with stores := putStoreList s.stores st' }

/-! ## `processRegionHeartbeat` (server/cluster.go) -/

/-- The flag computation of `processRegionHeartbeat` for a region that is
already cached (`origin != nil`), given that the staleness test passed.
Each disjunct corresponds, in order, to one `if` of the Go code; the Go code
only ever sets a flag to `true`, so the sequential writes collapse to
disjunctions.  Returns `(saveKV, saveCache, isNew)`. -/
def heartbeatFlags (o r : RegionInfo) : Bool × Bool × Bool :=
  let verBump := o.epoch.version < r.epoch.version
  let confBump := o.epoch.confVer < r.epoch.confVer
  let leaderChange := r.leader.id != o.leader.id
  let downPending := !r.downPeers.isEmpty || !r.pendingPeers.isEmpty ||
    !o.downPeers.isEmpty || !o.pendingPeers.isEmpty
  let peerCountChange := r.peers.length != o.peers.length
  let sizeChange := r.approximateSize != o.approximateSize ||
    r.approximateKeys != o.approximateKeys
  let flowChange := r.bytesWritten != o.bytesWritten || r.bytesRead != o.bytesRead ||
    r.keysWritten != o.keysWritten || r.keysRead != o.keysRead
  (verBump || confBump || peerCountChange,
   verBump || confBump || leaderChange || downPending || peerCountChange ||
     sizeChange || flowChange,
   leaderChange && o.leader.id == 0)

/-- The read-lock phase of `processRegionHeartbeat`: the staleness test and
the `saveKV` / `saveCache` / `isNew` decision.  `origin` is the cached region
with the incoming id, `overlaps` is `GetOverlaps(region)` (only consulted
when `origin` is absent, as in the Go code).  An `error` result is
`ErrRegionIsStale(region, existing)`. -/
def heartbeatCheck (origin : Option RegionInfo) (overlaps : List RegionInfo)
    (r : RegionInfo) : Except (RegionInfo × RegionInfo) (Bool × Bool × Bool) :=
  match origin with
  | none =>
    match overlaps.find? (fun item => r.epoch.version < item.epoch.version) with
    | some item => .error (r, item)
    | none => .ok (true, true, true)
  | some o =>
    if r.epoch.version < o.epoch.version || r.epoch.confVer < o.epoch.confVer then
      .error (r, o)
    else
      .ok (heartbeatFlags o r)

/-- `RaftCluster.processRegionHeartbeat`.  `writeItems` / `readItems` are
the results of `CheckWriteStatus` / `CheckReadStatus` (computed by the hot
cache, which lives outside the source files; they are inputs here and do not
depend on the cluster state being mutated).  `saveOk` tells whether the
`storage.SaveRegion` write succeeds; on failure the Go code only logs and
carries on.  Returns the error result and the state after the call. -/
def processRegionHeartbeat (s : ClusterState) (region : RegionInfo)
    (writeItems readItems : List HotItem) (saveOk : Bool) :
    Option (RegionInfo × RegionInfo) × ClusterState :=
  let origin := findRegion s.regions region.id
  match heartbeatCheck origin (getOverlaps s.regions region) region with
  | .error e => (some e, s)
  | .ok (saveKV, saveCache, isNew) =>
    -- `if saveKV && c.storage != nil { SaveRegion; ... }` (failure logged only)
    let s1 := if saveKV && saveOk then
        { s with regionStorage := saveRegionStorage s.regionStorage region }
      else s
    if writeItems.isEmpty && readItems.isEmpty && !saveCache && !isNew then
      (none, s1)
    else
      let s2 := if isNew then { s1 with prepared := s1.prepared ++ [region.id] } else s1
      let s3 :=
        if saveCache then
          let pr := putRegionM s2.regions region
          let s3a := { s2 with
            regions := pr.2
            regionStorage := pr.1.foldl (fun st it => deleteRegionStorage st it.id)
              s2.regionStorage }
          let s3b := match origin with
            | some o => o.peers.foldl (fun st p => updateStoreStatus st p.storeId) s3a
            | none => s3a
          region.peers.foldl (fun st p => updateStoreStatus st p.storeId) s3b
        else s2
      (none, { s3 with hotUpdates := s3.hotUpdates ++ writeItems ++ readItems })

/-- The staleness condition of the claim: either the cached region with the
same id has a strictly newer version or conf_ver, or no region with that id
is cached and some cached overlapping region has strictly greater version. -/
def staleCondition (s : ClusterState) (r : RegionInfo) : Prop :=
  (∃ o, findRegion s.regions r.id = some o ∧
      (r.epoch.version < o.epoch.version ∨ r.epoch.confVer < o.epoch.confVer)) ∨
  (findRegion s.regions r.id = none ∧
    ∃ x ∈ s.regions, regionsOverlap r x = true ∧ r.epoch.version < x.epoch.version)

/-! ## Store operations (server/cluster.go) -/

/-- The error kinds surfaced by the embedded store operations. -/
inductive ClusterErr
  | storeNotFound
  | storeTombstoned
  | storeStillUp
  | persistence
  | invalidStoreId
  | badVersion
  | incompatibleVersion
  | dupAddress
  | missingLabel
  | unknownLabel
  deriving Repr, DecidableEq

/-- `RaftCluster.putStoreLocked`: persist the store meta, then update the
cache and create the rolling stats entry.  `saveOk` tells whether the
`storage.SaveStore` write succeeds; on failure the error is returned and
nothing is mutated. -/
def putStoreLocked (s : ClusterState) (st : Store) (saveOk : Bool) :
    Option ClusterErr × ClusterState :=
  if saveOk then
    (none, { s with
      storeStorage := putStoreMetaList s.storeStorage st.meta
      stores := putStoreList s.stores st
      rolling := if s.rolling.contains st.meta.id then s.rolling
                 else s.rolling ++ [st.meta.id] })
  else (some .persistence, s)

/-- `RaftCluster.handleStoreHeartbeat`: look the store up by the stats'
store id; clone it with the new stats and heartbeat timestamp, put it back,
and record the observation in `StoresStats`. -/
def handleStoreHeartbeat (s : ClusterState) (stats : StoreStats) (now : Nat) :
    Option ClusterErr × ClusterState :=
  match findStore s.stores stats.statsStoreId with
  | none => (some .storeNotFound, s)
  | some st =>
    let newStore := { st with stats := stats, lastHeartbeatTS := now }
    (none, { s with
      stores := putStoreList s.stores newStore
      observations := s.observations ++ [(newStore.meta.id, stats)] })

/-- Modelled from the spec: `server.IsCompatible` / `ParseVersion` are not
under `src/`.  Spec §4.3: "version parseable and compatible with the
cluster-wide minimum (a store with older version than the cluster rejects)".
With versions modelled as naturals, compatibility is `clusterVersion ≤ v`. -/
def isCompatibleVersion (clusterVersion v : Nat) : Bool :=
  clusterVersion ≤ v

/-- Modelled from the spec: `core.StoreInfo.MergeLabels` is not under
`src/` (the call site's comment says "putStore will perform label merge"):
each incoming label overwrites the value of an existing key, otherwise it is
appended. -/
def mergeLabels (old new : List (String × String)) : List (String × String) :=
  new.foldl
    (fun acc l =>
      if acc.any (fun t => t.1 == l.1) then
        acc.map (fun t => if t.1 == l.1 then (t.1, l.2) else t)
      else acc ++ [l])
    old

/-- `core.StoreInfo.GetLabelValue`: the value of the label with the given
key, or the empty string when absent. -/
def labelValue (labels : List (String × String)) (k : String) : String :=
  match labels.find? (fun l => l.1 == k) with
  | some l => l.2
  | none => ""

/-- The store that `RaftCluster.putStore` checks and stores: a fresh
`StoreInfo` for a new id, otherwise the existing store cloned with the new
address, version, and merged labels (state and runtime fields untouched). -/
def putStoreCandidate (s : ClusterState) (m : StoreMeta) : Store :=
  match findStore s.stores m.id with
  | none => newStoreInfo m
  | some old =>
    { old with meta := { old.meta with
        address := m.address
        version := m.version
        labels := mergeLabels old.meta.labels m.labels } }

/-- `RaftCluster.putStore`: validation cascade (nonzero id, parseable and
compatible version, address unique among other non-Tombstone stores, strict
location-label check) followed by `putStoreLocked`. -/
def putStore (s : ClusterState) (m : StoreMeta) (saveOk : Bool) :
    Option ClusterErr × ClusterState :=
  if m.id = 0 then (some .invalidStoreId, s)
  else
    match m.version with
    | none => (some .badVersion, s)
    | some v =>
      if !isCompatibleVersion s.clusterVersion v then (some .incompatibleVersion, s)
      else if s.stores.any (fun t =>
          !(t.meta.state == .tombstone) && t.meta.id != m.id &&
            t.meta.address == m.address) then
        (some .dupAddress, s)
      else
        let st := putStoreCandidate s m
        if s.strictlyMatchLabel &&
            s.locationLabels.any (fun k => labelValue st.meta.labels k == "") then
          (some .missingLabel, s)
        else if s.strictlyMatchLabel &&
            st.meta.labels.any (fun l => !(s.locationLabels.contains l.1)) then
          (some .unknownLabel, s)
        else putStoreLocked s st saveOk

/-- `RaftCluster.RemoveStore`: Up -> Offline; removing an Offline store is a
no-op; removing a Tombstone store is an error. -/
def removeStore (s : ClusterState) (storeID : Nat) (saveOk : Bool) :
    Option ClusterErr × ClusterState :=
  match findStore s.stores storeID with
  | none => (some .storeNotFound, s)
  | some st =>
    if st.meta.state = .offline then (none, s)
    else if st.meta.state = .tombstone then (some .storeTombstoned, s)
    else putStoreLocked s { st with meta := { st.meta with state := .offline } } saveOk

/-- `RaftCluster.BuryStore`: burying a Tombstone store is a no-op; burying
an Up store needs `force`; otherwise the store becomes Tombstone. -/
def buryStore (s : ClusterState) (storeID : Nat) (force : Bool) (saveOk : Bool) :
    Option ClusterErr × ClusterState :=
  match findStore s.stores storeID with
  | none => (some .storeNotFound, s)
  | some st =>
    if st.meta.state = .tombstone then (none, s)
    else if st.meta.state = .up && !force then (some .storeStillUp, s)
    else putStoreLocked s { st with meta := { st.meta with state := .tombstone } } saveOk

/-- `RaftCluster.SetStoreState`: clone the store with the requested state,
unconditionally. -/
def setStoreState (s : ClusterState) (storeID : Nat) (state : StoreState)
    (saveOk : Bool) : Option ClusterErr × ClusterState :=
  match findStore s.stores storeID with
  | none => (some .storeNotFound, s)
  | some st =>
    putStoreLocked s { st with meta := { st.meta with state := state } } saveOk

/-- The state of the store with the given id, if cached. -/
def storeStateOf (s : ClusterState) (id : Nat) : Option StoreState :=
  (findStore s.stores id).map (fun st => st.meta.state)

/-! ## `ScheduleConfig.Validate` (server/config/config.go) -/

/-- The `ScheduleConfig` fields read by `Validate`.  The Go fields are
`float64`; the validation only compares them against the constants 0 and 1,
so they are embedded as rationals. -/
structure ScheduleConfigV where
  tolerantSizeRat : Rat
  lowSpaceRat : Rat
  highSpaceRat : Rat
  schedulers : List String
  deriving Repr, DecidableEq

/-- The distinct errors `ScheduleConfig.Validate` can return. -/
inductive ValidateErr
  | tolerantSizeNegative
  | lowSpaceOutOfRange
  | highSpaceOutOfRange
  | lowSpaceNotAboveHighSpace
  | schedulerNotRegistered (typ : String)
  deriving Repr, DecidableEq

/-- `ScheduleConfig.Validate`.  The scheduler registry
(`schedule.IsSchedulerRegistered`) lives outside the source files and is
passed as a predicate. -/
def scheduleConfigValidate (registered : String → Bool) (c : ScheduleConfigV) :
    Option ValidateErr :=
  if c.tolerantSizeRat < 0 then some .tolerantSizeNegative
  else if c.lowSpaceRat < 0 || c.lowSpaceRat > 1 then some .lowSpaceOutOfRange
  else if c.highSpaceRat < 0 || c.highSpaceRat > 1 then some .highSpaceOutOfRange
  else if c.lowSpaceRat ≤ c.highSpaceRat then some .lowSpaceNotAboveHighSpace
  else
    match c.schedulers.find? (fun t => !registered t) with
    | some t => some (.schedulerNotRegistered t)
    | none => none

/-! ## The balance-region scheduler (server/schedulers/balance_region.go) -/

/-- `balanceRegionRetryLimit`. -/
def balanceRegionRetryLimit : Nat := 10

/-- `hitsStoreTTL = 5 * time.Minute`, in milliseconds. -/
def hitsStoreTTL : Nat := 5 * 60 * 1000

/-- `hitsStoreCountThreshold = 30 * balanceRegionRetryLimit`. -/
def hitsStoreCountThreshold : Nat := 30 * balanceRegionRetryLimit

/-- A `record` of the `hitsStoreBuilder`. -/
structure HitsRecord where
  lastTime : Nat
  count : Nat
  deriving Repr, DecidableEq

/-- The key of the `hits` map: the Go code builds the strings `"s<id>"` and
`"s<id>->t<id>"` from the source id and the optional target id, so the keys
are in bijection with these pairs.  (A nil source yields the key `""`, which
the Go code handles before touching the map; that case is `none` below.) -/
abbrev HitsKey := Nat × Option Nat

/-- The `hits` map of the `hitsStoreBuilder`. -/
abbrev HitsState := List (HitsKey × HitsRecord)

/-- `hitsStoreBuilder.getKey`. -/
def hitsGetKey (source target : Option Store) : Option HitsKey :=
  match source with
  | none => none
  | some s => some (s.meta.id, target.map (fun t => t.meta.id))

/-- Map lookup on the `hits` map. -/
def hitsLookup (h : HitsState) (k : HitsKey) : Option HitsRecord :=
  (h.find? (fun e => e.1 == k)).map (fun e => e.2)

/-- Go `delete(h.hits, key)`. -/
def hitsErase (h : HitsState) (k : HitsKey) : HitsState :=
  h.filter (fun e => !(e.1 == k))

/-- Go `h.hits[key] = item` (map assignment). -/
def hitsAssign : HitsState → HitsKey → HitsRecord → HitsState
  | [], k, r => [(k, r)]
  | e :: es, k, r => if e.1 = k then (k, r) :: es else e :: hitsAssign es k r

/-- `hitsStoreBuilder.filter`: delete the record if it is older than the
TTL, and report a hit when the record is within the TTL and its count has
reached the threshold.  `now - lastTime` embeds `time.Since(lastTime)`.
Returns the verdict and the (possibly pruned) map. -/
def hitsFilter (h : HitsState) (ttl threshold now : Nat)
    (source target : Option Store) : Bool × HitsState :=
  match hitsGetKey source target with
  | none => (false, h)
  | some key =>
    match hitsLookup h key with
    | none => (false, h)
    | some item =>
      let h1 := if ttl < now - item.lastTime then hitsErase h key else h
      if now - item.lastTime ≤ ttl && threshold ≤ item.count then (true, h1)
      else (false, h1)

/-- `hitsStoreBuilder.put`: a fresh record starts with `count = 0`; a
record refreshed within the TTL increments its count, one refreshed at or
after the TTL resets the count to `0`. -/
def hitsPut (h : HitsState) (ttl now : Nat) (source target : Option Store) :
    HitsState :=
  match hitsGetKey source target with
  | none => h
  | some key =>
    match hitsLookup h key with
    | some item =>
      let item' := if ttl ≤ now - item.lastTime then HitsRecord.mk now 0
                   else HitsRecord.mk now (item.count + 1)
      hitsAssign h key item'
    | none => hitsAssign h key (HitsRecord.mk now 0)

/-- `hitsStoreBuilder.remove`. -/
def hitsRemove (h : HitsState) (source target : Option Store) : HitsState :=
  match hitsGetKey source target with
  | none => h
  | some key => hitsErase h key

/-- `hitsStoreBuilder.buildSourceFilter`: collect into a blacklist every
store the cooldown rejects as source, threading the map (the filter prunes
expired records as it runs). -/
def buildSourceFilter (stores : List Store) (h : HitsState) (now : Nat) :
    List Nat × HitsState :=
  stores.foldl
    (fun acc st =>
      let fr := hitsFilter acc.2 hitsStoreTTL hitsStoreCountThreshold now (some st) none
      (if fr.1 then acc.1 ++ [st.meta.id] else acc.1, fr.2))
    ([], h)

/-- `hitsStoreBuilder.buildTargetFilter`. -/
def buildTargetFilter (stores : List Store) (h : HitsState) (now : Nat)
    (source : Option Store) : List Nat × HitsState :=
  stores.foldl
    (fun acc st =>
      let fr := hitsFilter acc.2 hitsStoreTTL hitsStoreCountThreshold now source (some st)
      (if fr.1 then acc.1 ++ [st.meta.id] else acc.1, fr.2))
    ([], h)

/-- A `MovePeer` operator as built by `transferPeer` via
`operator.CreateMovePeerOperator` (add a peer on the target store, remove
the old peer from the source store). -/
structure Operator where
  opRegionId : Nat
  fromStoreId : Nat
  toStoreId : Nat
  newPeerId : Nat
  deriving Repr, DecidableEq

/-- The collaborators of the scheduler that live outside the source files
(`opt.Cluster`, `core` random sampling, `selector.BalanceSelector`,
`checker.ReplicaChecker`, `shouldBalance`, id allocation), passed as
oracles.  Randomness is modelled by indexing the sampling oracles with the
retry-loop iteration. -/
structure SchedEnv where
  stores : List Store
  maxReplicas : Nat
  isRegionHot : RegionInfo → Bool
  randPendingRegion : Nat → Nat → Option RegionInfo
  randFollowerRegion : Nat → Nat → Option RegionInfo
  randLeaderRegion : Nat → Nat → Option RegionInfo
  selectSource : List (Option Store) → List Nat → Option Store
  getStore : Nat → Option Store
  selectBestReplacement : RegionInfo → Peer → List Nat → List Nat → Nat
  shouldBalance : Nat → Nat → RegionInfo → Bool
  allocPeer : Nat → Option Nat
  createOpOk : Bool

/-- The region pick of one retry iteration: a pending region first, then a
follower region, last a leader region (`scheduleImpl`'s priority order). -/
def pickRegion (env : SchedEnv) (sourceId i : Nat) : Option RegionInfo :=
  match env.randPendingRegion sourceId i with
  | some r => some r
  | none =>
    match env.randFollowerRegion sourceId i with
    | some r => some r
    | none => env.randLeaderRegion sourceId i

/-- `core.RegionInfo.GetStorePeer`: the region's peer living on the given
store; the zero `Peer` when there is none (nil-tolerant getters). -/
def getStorePeer (r : RegionInfo) (storeId : Nat) : Peer :=
  match r.peers.find? (fun p => p.storeId == storeId) with
  | some p => p
  | none => ⟨0, 0⟩

/-- `balanceRegionScheduler.transferPeer`: pick the best replacement store
(0 meaning none), apply the `shouldBalance` gate, allocate a peer and build
the move-peer operator; on success clear the source/target cooldowns. -/
def transferPeer (env : SchedEnv) (region : RegionInfo) (oldPeer : Peer)
    (excludedStores : List (Option Store)) (h : HitsState) (now : Nat) :
    Option Operator × HitsState :=
  let source := env.getStore oldPeer.storeId
  let tf := buildTargetFilter env.stores h now source
  let excludeIds := excludedStores.map (fun o => (o.map (fun st => st.meta.id)).getD 0)
  let storeID := env.selectBestReplacement region oldPeer tf.1 excludeIds
  if storeID = 0 then
    (none, hitsPut tf.2 hitsStoreTTL now source none)
  else
    let target := env.getStore storeID
    if !env.shouldBalance oldPeer.storeId storeID region then
      (none, hitsPut tf.2 hitsStoreTTL now source target)
    else
      match env.allocPeer storeID with
      | none => (none, tf.2)
      | some newPeerId =>
        if env.createOpOk then
          (some ⟨region.id, oldPeer.storeId, storeID, newPeerId⟩,
           hitsRemove (hitsRemove tf.2 source target) source none)
        else (none, tf.2)

/-- The retry loop of `scheduleImpl`, iterating over the remaining attempt
indices: pick a region, skip it (recording a cooldown hit) when it is
missing, has an abnormal replica count, or is hot; otherwise try
`transferPeer` and return its operator if it produced one. -/
def scheduleRetry (env : SchedEnv) (source : Store)
    (excludedStores : List (Option Store)) (now : Nat) :
    HitsState → List Nat → Option Operator × HitsState
  | h, [] => (none, h)
  | h, i :: rest =>
    match pickRegion env source.meta.id i with
    | none =>
      scheduleRetry env source excludedStores now
        (hitsPut h hitsStoreTTL now (some source) none) rest
    | some region =>
      if region.peers.length ≠ env.maxReplicas then
        scheduleRetry env source excludedStores now
          (hitsPut h hitsStoreTTL now (some source) none) rest
      else if env.isRegionHot region then
        scheduleRetry env source excludedStores now
          (hitsPut h hitsStoreTTL now (some source) none) rest
      else
        let oldPeer := getStorePeer region source.meta.id
        match transferPeer env region oldPeer excludedStores h now with
        | (some op, h1) => (some op, h1)
        | (none, h1) => scheduleRetry env source excludedStores now h1 rest

/-- `balanceRegionScheduler.scheduleImpl`: build the cooldown source
blacklist, select a source store from `includeStores`, and run the retry
loop with `balanceRegionRetryLimit` attempts. -/
def scheduleImpl (env : SchedEnv) (includeStores excludedStores : List (Option Store))
    (h : HitsState) (now : Nat) : Option Operator × HitsState :=
  let sf := buildSourceFilter env.stores h now
  match env.selectSource includeStores sf.1 with
  | none => (none, sf.2)
  | some source =>
    scheduleRetry env source excludedStores now sf.2 (List.range balanceRegionRetryLimit)

/-- The tier split of `balanceRegionScheduler.Schedule`.  Go allocates both
slices with `make([]*core.StoreInfo, len(stores))` and then appends, so each
tier starts with `len(stores)` nil entries (`none` here); a store of type
Storage goes to the first tier, and a store of any other type (Performance
included) to the second. -/
def partitionStores (stores : List Store) :
    List (Option Store) × List (Option Store) :=
  stores.foldl
    (fun acc store =>
      if store.meta.storeType = .storage then (acc.1 ++ [some store], acc.2)
      else if store.meta.storeType = .performance then (acc.1, acc.2 ++ [some store])
      else (acc.1, acc.2 ++ [some store]))
    (List.replicate stores.length none, List.replicate stores.length none)

/-- The partition described by the claim's words, for comparison: every
store whose type is anything other than Performance is treated as a
Storage-tier store. -/
def partitionStoresClaim (stores : List Store) : List Store × List Store :=
  (stores.filter (fun st => st.meta.storeType ≠ .performance),
   stores.filter (fun st => st.meta.storeType = .performance))

/-- `balanceRegionScheduler.Schedule`: split the stores into the two tiers,
try `scheduleImpl` with the storage tier as the include set first, and fall
back to the swapped call when it yields nothing. -/
def balanceRegionSchedule (env : SchedEnv) (h : HitsState) (now : Nat) :
    Option Operator × HitsState :=
  let parts := partitionStores env.stores
  match scheduleImpl env parts.1 parts.2 h now with
  | (some op, h1) => (some op, h1)
  | (none, h1) => scheduleImpl env parts.2 parts.1 h1 now

/-! ## Helper lemmas on the list-backed maps -/

lemma findStore_some_id {stores : List Store} {id : Nat} {st : Store}
    (h : findStore stores id = some st) : st.meta.id = id := by
  have hp := List.find?_some h
  simpa using hp

lemma findStore_putStoreList_self (l : List Store) (st : Store) :
    findStore (putStoreList l st) st.meta.id = some st := by
  induction l with
  | nil => simp [putStoreList, findStore]
  | cons t ts ih =>
    by_cases h : t.meta.id = st.meta.id
    · simp [putStoreList, h, findStore]
    · simp only [putStoreList, if_neg h]
      rw [findStore, List.find?_cons_of_neg, ← findStore]
      · exact ih
      · simpa using h

lemma findStore_putStoreList_ne (l : List Store) (st : Store) (j : Nat)
    (h : st.meta.id ≠ j) : findStore (putStoreList l st) j = findStore l j := by
  induction l with
  | nil => simp [putStoreList, findStore, h]
  | cons t ts ih =>
    unfold putStoreList
    by_cases ht : t.meta.id = st.meta.id
    · have h2 : t.meta.id ≠ j := by rw [ht]; exact h
      have hb1 : (st.meta.id == j) = false := by simpa using h
      have hb2 : (t.meta.id == j) = false := by simpa using h2
      rw [if_pos ht]
      simp [findStore, List.find?_cons, hb1, hb2]
    · rw [if_neg ht]
      by_cases hj : t.meta.id = j
      · have hb : (t.meta.id == j) = true := by simpa using hj
        simp [findStore, List.find?_cons, hb]
      · have hb : (t.meta.id == j) = false := by simpa using hj
        simp only [findStore, List.find?_cons, hb]
        simpa [findStore] using ih

lemma storeStateOf_putStoreLocked_ne (s : ClusterState) (st : Store) (ok : Bool)
    (id : Nat) (h : st.meta.id ≠ id) :
    storeStateOf (putStoreLocked s st ok).2 id = storeStateOf s id := by
  cases ok with
  | false => simp [putStoreLocked]
  | true => simp [putStoreLocked, storeStateOf, findStore_putStoreList_ne _ _ _ h]

lemma storeStateOf_putStoreLocked_self (s : ClusterState) (st : Store) (id : Nat)
    (hid : st.meta.id = id) :
    storeStateOf (putStoreLocked s st true).2 id = some st.meta.state := by
  subst hid
  simp [putStoreLocked, storeStateOf, findStore_putStoreList_self]

lemma putStoreLocked_tombstone_frame (s : ClusterState) (st : Store) (ok : Bool)
    (id : Nat) (h : storeStateOf s id = some .tombstone)
    (hcase : st.meta.id ≠ id ∨ st.meta.state = .tombstone) :
    storeStateOf (putStoreLocked s st ok).2 id = some .tombstone := by
  cases ok with
  | false => simpa [putStoreLocked] using h
  | true =>
    by_cases hid : st.meta.id = id
    · rcases hcase with hne | hts
      · exact absurd hid hne
      · rw [storeStateOf_putStoreLocked_self s st id hid, hts]
    · rw [storeStateOf_putStoreLocked_ne s st true id hid]; exact h

/-! ## Claim C5: `BuryStore` state cases -/

/-- C5: `BuryStore(storeID, force)` on an existing store behaves by its
current state: from Up without `force` it returns an error and changes
nothing; from Up with `force` it moves the store to Tombstone; from
Tombstone it is a successful no-op; from Offline it always moves the store
to Tombstone (with the metadata write succeeding). -/
theorem buryStore_state_cases (s : ClusterState) (id : Nat) (st : Store)
    (h : findStore s.stores id = some st) :
    (st.meta.state = .up → ∀ ok, buryStore s id false ok = (some .storeStillUp, s)) ∧
    (st.meta.state = .up →
      (buryStore s id true true).1 = none ∧
      storeStateOf (buryStore s id true true).2 id = some .tombstone) ∧
    (st.meta.state = .tombstone → ∀ force ok, buryStore s id force ok = (none, s)) ∧
    (st.meta.state = .offline → ∀ force,
      (buryStore s id force true).1 = none ∧
      storeStateOf (buryStore s id force true).2 id = some .tombstone) := by
  have hid : st.meta.id = id := findStore_some_id h
  refine ⟨?_, ?_, ?_, ?_⟩
  · intro hst ok
    simp [buryStore, h, hst]
  · intro hst
    constructor
    · simp [buryStore, h, hst, putStoreLocked]
    · simp only [buryStore, h, hst]
      norm_num
      exact storeStateOf_putStoreLocked_self s _ id hid
  · intro hst force ok
    simp [buryStore, h, hst]
  · intro hst force
    constructor
    · simp [buryStore, h, hst, putStoreLocked]
    · simp only [buryStore, h, hst]
      norm_num
      exact storeStateOf_putStoreLocked_self s _ id hid

/-- C5 witness: the four cases exercised on a concrete two-state cluster. -/
theorem buryStore_state_cases_witness :
    (buryStore (ClusterState.mk
        [newStoreInfo ⟨1, "a1", some 3, .up, [], .performance⟩] [] [] [] [] [] [] [] 0 [] false)
      1 false true
      = (some .storeStillUp, ClusterState.mk
        [newStoreInfo ⟨1, "a1", some 3, .up, [], .performance⟩] [] [] [] [] [] [] [] 0 [] false)) ∧
    storeStateOf (buryStore (ClusterState.mk
        [newStoreInfo ⟨1, "a1", some 3, .up, [], .performance⟩] [] [] [] [] [] [] [] 0 [] false)
      1 true true).2 1 = some .tombstone := by
  have h := buryStore_state_cases (ClusterState.mk
      [newStoreInfo ⟨1, "a1", some 3, .up, [], .performance⟩] [] [] [] [] [] [] [] 0 [] false)
    1 (newStoreInfo ⟨1, "a1", some 3, .up, [], .performance⟩) (by decide)
  exact ⟨h.1 rfl true, (h.2.1 rfl).2⟩

/-! ## Claim C3: Tombstone permanence -/

/-- A one-store cluster whose store 1 is Tombstone. -/
def tombstoneCluster : ClusterState :=
  ClusterState.mk
    [newStoreInfo ⟨1, "a1", some 3, .tombstone, [], .performance⟩]
    [] [] [] [] [] [] [] 0 [] false

/-- C3 counterexample: `SetStoreState` sets the requested state
unconditionally, so it moves a Tombstone store back to Up, contradicting
the claim that no public store mutation ever takes a store out of
Tombstone. -/
theorem setStoreState_revives_tombstone :
    storeStateOf tombstoneCluster 1 = some .tombstone ∧
    (setStoreState tombstoneCluster 1 .up true).1 = none ∧
    storeStateOf (setStoreState tombstoneCluster 1 .up true).2 1 = some .up := by
  decide

lemma putStoreCandidate_id (s : ClusterState) (m : StoreMeta) :
    (putStoreCandidate s m).meta.id = m.id := by
  unfold putStoreCandidate
  cases hf : findStore s.stores m.id with
  | none => rfl
  | some old => simpa using findStore_some_id hf

/-- C3 (amended): a Tombstone store stays Tombstone under `putStore`,
`RemoveStore` and `BuryStore` (for any arguments and whether or not the
metadata write succeeds); `SetStoreState`, by contrast, overwrites the
state unconditionally and can revive a Tombstone store. -/
theorem tombstone_stays_without_setStoreState (s : ClusterState) (id : Nat)
    (h : storeStateOf s id = some .tombstone) :
    (∀ m ok, storeStateOf (putStore s m ok).2 id = some .tombstone) ∧
    (∀ sid ok, storeStateOf (removeStore s sid ok).2 id = some .tombstone) ∧
    (∀ sid force ok, storeStateOf (buryStore s sid force ok).2 id = some .tombstone) := by
  obtain ⟨st0, hf0, hts0⟩ :
      ∃ st0, findStore s.stores id = some st0 ∧ st0.meta.state = .tombstone := by
    unfold storeStateOf at h
    cases hf : findStore s.stores id with
    | none => rw [hf] at h; simp at h
    | some st0 =>
      rw [hf] at h
      simp only [Option.map_some', Option.some.injEq] at h
      exact ⟨st0, rfl, h⟩
  refine ⟨?_, ?_, ?_⟩
  · intro m ok
    unfold putStore
    by_cases h1 : m.id = 0
    · simpa [h1] using h
    · rw [if_neg h1]
      cases hv : m.version with
      | none => exact h
      | some v =>
        by_cases h2 : isCompatibleVersion s.clusterVersion v
        · simp only [h2, Bool.not_true, Bool.false_eq_true, if_false]
          by_cases h3 : (s.stores.any fun t =>
              !(t.meta.state == StoreState.tombstone) && t.meta.id != m.id &&
                t.meta.address == m.address) = true
          · rw [if_pos h3]; exact h
          · rw [if_neg h3]
            by_cases h4 : (s.strictlyMatchLabel &&
                s.locationLabels.any fun k =>
                  labelValue (putStoreCandidate s m).meta.labels k == "") = true
            · rw [if_pos h4]; exact h
            · rw [if_neg h4]
              by_cases h5 : (s.strictlyMatchLabel &&
                  (putStoreCandidate s m).meta.labels.any fun l =>
                    !s.locationLabels.contains l.1) = true
              · rw [if_pos h5]; exact h
              · rw [if_neg h5]
                apply putStoreLocked_tombstone_frame s _ ok id h
                by_cases hm : m.id = id
                · right
                  unfold putStoreCandidate
                  rw [hm, hf0]
                  simpa using hts0
                · left
                  rw [putStoreCandidate_id]
                  exact hm
        · simp only [h2, Bool.not_false, if_true]
          exact h
  · intro sid ok
    unfold removeStore
    cases hf : findStore s.stores sid with
    | none => exact h
    | some st =>
      dsimp only
      by_cases ho : st.meta.state = .offline
      · rw [if_pos ho]; exact h
      · rw [if_neg ho]
        by_cases ht : st.meta.state = .tombstone
        · rw [if_pos ht]; exact h
        · rw [if_neg ht]
          apply putStoreLocked_tombstone_frame s _ ok id h
          left
          have : st.meta.id = sid := findStore_some_id hf
          simp only [this]
          intro hsid
          rw [hsid] at hf
          rw [hf0] at hf
          injection hf with hst
          rw [hst] at hts0
          exact ht hts0
  · intro sid force ok
    unfold buryStore
    cases hf : findStore s.stores sid with
    | none => exact h
    | some st =>
      dsimp only
      by_cases ht : st.meta.state = .tombstone
      · rw [if_pos ht]; exact h
      · rw [if_neg ht]
        by_cases hu : (decide (st.meta.state = StoreState.up) && !force) = true
        · rw [if_pos hu]; exact h
        · rw [if_neg hu]
          apply putStoreLocked_tombstone_frame s _ ok id h
          right
          rfl

/-- C3 (amended) witness: the three preserved operations exercised on the
concrete Tombstone cluster. -/
theorem tombstone_stays_witness :
    storeStateOf (putStore tombstoneCluster ⟨2, "a2", some 3, .up, [], .performance⟩ true).2 1
      = some .tombstone ∧
    storeStateOf (removeStore tombstoneCluster 1 true).2 1 = some .tombstone ∧
    storeStateOf (buryStore tombstoneCluster 1 true true).2 1 = some .tombstone := by
  have h := tombstone_stays_without_setStoreState tombstoneCluster 1 (by decide)
  exact ⟨h.1 ⟨2, "a2", some 3, .up, [], .performance⟩ true, h.2.1 1 true, h.2.2 1 true true⟩

/-! ## Claim C10: `handleStoreHeartbeat` frame -/

/-- C10: a store heartbeat for a known store id replaces only that store's
sampled statistics and last-heartbeat timestamp (the meta — id, address,
state, labels — and the runtime weights, blocked flag and counters are kept,
as is every other store, the region cache and the metadata store); an
unknown store id yields a store-not-found error with the state unchanged. -/
theorem handleStoreHeartbeat_frame (s : ClusterState) (stats : StoreStats) (now : Nat) :
    (∀ st, findStore s.stores stats.statsStoreId = some st →
      (handleStoreHeartbeat s stats now).1 = none ∧
      findStore (handleStoreHeartbeat s stats now).2.stores stats.statsStoreId =
        some { st with stats := stats, lastHeartbeatTS := now } ∧
      (∀ j, j ≠ stats.statsStoreId →
        findStore (handleStoreHeartbeat s stats now).2.stores j = findStore s.stores j) ∧
      (handleStoreHeartbeat s stats now).2.regions = s.regions ∧
      (handleStoreHeartbeat s stats now).2.regionStorage = s.regionStorage ∧
      (handleStoreHeartbeat s stats now).2.storeStorage = s.storeStorage ∧
      (handleStoreHeartbeat s stats now).2.rolling = s.rolling ∧
      (handleStoreHeartbeat s stats now).2.hotUpdates = s.hotUpdates ∧
      (handleStoreHeartbeat s stats now).2.prepared = s.prepared) ∧
    (findStore s.stores stats.statsStoreId = none →
      handleStoreHeartbeat s stats now = (some .storeNotFound, s)) := by
  constructor
  · intro st hf
    have hid : st.meta.id = stats.statsStoreId := findStore_some_id hf
    simp only [handleStoreHeartbeat, hf]
    refine ⟨trivial, ?_, ?_, trivial, trivial, trivial, trivial, trivial, trivial⟩
    · rw [← hid]
      exact findStore_putStoreList_self s.stores _
    · intro j hj
      apply findStore_putStoreList_ne
      intro hh
      exact hj (hh.symm.trans hid)
  · intro hn
    simp [handleStoreHeartbeat, hn]

/-- The concrete one-store cluster for the C10 witness. -/
def hbStore : Store := newStoreInfo ⟨1, "a1", some 3, .up, [], .performance⟩

/-- The concrete cluster for the C10 witness. -/
def hbCluster : ClusterState :=
  ClusterState.mk [hbStore] [] [] [] [] [] [] [] 0 [] false

/-- C10 witness: the frame properties evaluated on a concrete heartbeat. -/
theorem handleStoreHeartbeat_frame_witness :
    (handleStoreHeartbeat hbCluster ⟨1, 100, 40, 7⟩ 5).1 = none ∧
    findStore (handleStoreHeartbeat hbCluster ⟨1, 100, 40, 7⟩ 5).2.stores 1 =
      some { hbStore with stats := ⟨1, 100, 40, 7⟩, lastHeartbeatTS := 5 } ∧
    (handleStoreHeartbeat hbCluster ⟨1, 100, 40, 7⟩ 5).2.regions = hbCluster.regions := by
  have h := (handleStoreHeartbeat_frame hbCluster ⟨1, 100, 40, 7⟩ 5).1 hbStore (by decide)
  exact ⟨h.1, h.2.1, h.2.2.2.1⟩

/-! ## Claim C9: `ScheduleConfig.Validate` -/

/-- C9: validation accepts a schedule configuration exactly when the
tolerant-size ratio is nonnegative, both space ratios lie in `[0, 1]` with
the low one strictly greater than the high one, and every named scheduler
is registered. -/
theorem scheduleConfigValidate_ok_iff (registered : String → Bool) (c : ScheduleConfigV) :
    scheduleConfigValidate registered c = none ↔
      (0 ≤ c.tolerantSizeRat ∧ 0 ≤ c.lowSpaceRat ∧ c.lowSpaceRat ≤ 1 ∧
       0 ≤ c.highSpaceRat ∧ c.highSpaceRat ≤ 1 ∧ c.highSpaceRat < c.lowSpaceRat ∧
       ∀ t ∈ c.schedulers, registered t = true) := by
  unfold scheduleConfigValidate
  split_ifs with h1 h2 h3 h4
  · refine iff_of_false (by simp) ?_
    rintro ⟨ht, -⟩
    exact absurd h1 (not_lt.mpr ht)
  · simp only [Bool.or_eq_true, decide_eq_true_eq] at h2
    refine iff_of_false (by simp) ?_
    rintro ⟨-, hl0, hl1, -⟩
    rcases h2 with h | h
    · exact absurd h (not_lt.mpr hl0)
    · exact absurd h (not_lt.mpr hl1)
  · simp only [Bool.or_eq_true, decide_eq_true_eq] at h3
    refine iff_of_false (by simp) ?_
    rintro ⟨-, -, -, hh0, hh1, -⟩
    rcases h3 with h | h
    · exact absurd h (not_lt.mpr hh0)
    · exact absurd h (not_lt.mpr hh1)
  · refine iff_of_false (by simp) ?_
    rintro ⟨-, -, -, -, -, hlh, -⟩
    exact absurd h4 (not_le.mpr hlh)
  · simp only [Bool.or_eq_true, decide_eq_true_eq, not_or] at h2 h3
    cases hfind : c.schedulers.find? (fun t => !registered t) with
    | some t =>
      refine iff_of_false (by simp) ?_
      rintro ⟨-, -, -, -, -, -, hall⟩
      have hmem := List.mem_of_find?_eq_some hfind
      have hp := List.find?_some hfind
      simp only [Bool.not_eq_true'] at hp
      exact absurd (hall t hmem) (by simp [hp])
    | none =>
      refine iff_of_true rfl ?_
      refine ⟨not_lt.mp h1, not_lt.mp h2.1, not_lt.mp h2.2, not_lt.mp h3.1,
        not_lt.mp h3.2, not_le.mp h4, ?_⟩
      intro t ht
      have := List.find?_eq_none.mp hfind t ht
      simpa using this

/-- C9 witness: the default ratios with one registered scheduler pass. -/
theorem scheduleConfigValidate_ok_iff_witness :
    scheduleConfigValidate (fun t => t == "balance-region")
      ⟨0, 4/5, 3/5, ["balance-region"]⟩ = none := by
  rw [scheduleConfigValidate_ok_iff]
  refine ⟨by norm_num, by norm_num, by norm_num, by norm_num, by norm_num, by norm_num, ?_⟩
  intro t ht
  simp only [List.mem_singleton] at ht
  simp [ht]

/-! ## Claim C1: `processRegionHeartbeat` staleness -/

lemma stale_iff_check_error (s : ClusterState) (r : RegionInfo) :
    staleCondition s r ↔
      ∃ e, heartbeatCheck (findRegion s.regions r.id) (getOverlaps s.regions r) r
        = .error e := by
  unfold staleCondition heartbeatCheck
  cases hf : findRegion s.regions r.id with
  | none =>
    simp only [hf]
    cases hfind : (getOverlaps s.regions r).find?
        (fun item => decide (r.epoch.version < item.epoch.version)) with
    | some item =>
      simp only [hfind]
      refine iff_of_true ?_ ⟨(r, item), rfl⟩
      right
      have hmem := List.mem_of_find?_eq_some hfind
      have hp := List.find?_some hfind
      rw [getOverlaps, List.mem_filter] at hmem
      exact ⟨trivial, item, hmem.1, hmem.2, by simpa using hp⟩
    | none =>
      simp only [hfind]
      refine iff_of_false ?_ (by simp)
      rintro (⟨o, ho, -⟩ | ⟨-, x, hx, hov, hlt⟩)
      · cases ho
      · have hxin : x ∈ getOverlaps s.regions r := by
          rw [getOverlaps, List.mem_filter]
          exact ⟨hx, hov⟩
        have := List.find?_eq_none.mp hfind x hxin
        simp only [decide_eq_true_eq] at this
        exact this hlt
  | some o =>
    simp only [hf]
    by_cases hcond : (decide (r.epoch.version < o.epoch.version) ||
        decide (r.epoch.confVer < o.epoch.confVer)) = true
    · rw [if_pos hcond]
      simp only [Bool.or_eq_true, decide_eq_true_eq] at hcond
      refine iff_of_true ?_ ⟨(r, o), rfl⟩
      exact Or.inl ⟨o, rfl, hcond⟩
    · rw [if_neg hcond]
      simp only [Bool.or_eq_true, decide_eq_true_eq, not_or] at hcond
      refine iff_of_false ?_ (by simp)
      rintro (⟨o', ho', hlt⟩ | ⟨hnone, -⟩)
      · injection ho' with ho'
        subst ho'
        rcases hlt with h | h
        · exact hcond.1 h
        · exact hcond.2 h
      · cases hnone

lemma processRegionHeartbeat_ok_fst (s : ClusterState) (region : RegionInfo)
    (w ri : List HotItem) (ok : Bool) (flags : Bool × Bool × Bool)
    (hc : heartbeatCheck (findRegion s.regions region.id) (getOverlaps s.regions region)
      region = .ok flags) :
    (processRegionHeartbeat s region w ri ok).1 = none := by
  obtain ⟨kv, sc, inew⟩ := flags
  simp only [processRegionHeartbeat, hc]
  split
  · rfl
  · rfl

/-- C1: `processRegionHeartbeat` returns the region-is-stale error exactly
when (a) a region with the same id is cached and the incoming epoch has a
strictly smaller version or conf_ver, or (b) no region with that id is
cached and some cached overlapping region has a strictly greater version;
and whenever the error is returned the whole cluster state — caches and
storage alike — is unchanged. -/
theorem processRegionHeartbeat_stale_iff (s : ClusterState) (region : RegionInfo)
    (w ri : List HotItem) (ok : Bool) :
    ((processRegionHeartbeat s region w ri ok).1.isSome = true ↔ staleCondition s region) ∧
    ((processRegionHeartbeat s region w ri ok).1.isSome = true →
      (processRegionHeartbeat s region w ri ok).2 = s) := by
  cases hc : heartbeatCheck (findRegion s.regions region.id)
      (getOverlaps s.regions region) region with
  | error e =>
    have hres : processRegionHeartbeat s region w ri ok = (some e, s) := by
      simp only [processRegionHeartbeat, hc]
    rw [hres]
    exact ⟨iff_of_true rfl ((stale_iff_check_error s region).mpr ⟨e, hc⟩), fun _ => rfl⟩
  | ok flags =>
    have hfst := processRegionHeartbeat_ok_fst s region w ri ok flags hc
    rw [hfst]
    constructor
    · refine iff_of_false (by simp) ?_
      intro hstale
      obtain ⟨e, he⟩ := (stale_iff_check_error s region).mp hstale
      rw [hc] at he
      cases he
    · intro hko
      cases hko

/-- C1 witness: a heartbeat with a smaller conf_ver than the cached region
is reported stale and leaves the concrete cluster untouched. -/
theorem processRegionHeartbeat_stale_iff_witness :
    (processRegionHeartbeat
        (ClusterState.mk [] [⟨1, [], [], ⟨5, 2⟩, ⟨10, 1⟩, [⟨10, 1⟩], [], [], 0, 0, 0, 0, 0, 0⟩]
          [] [] [] [] [] [] 0 [] false)
        ⟨1, [], [], ⟨4, 3⟩, ⟨10, 1⟩, [⟨10, 1⟩], [], [], 0, 0, 0, 0, 0, 0⟩ [] [] true).1.isSome
      = true ∧
    (processRegionHeartbeat
        (ClusterState.mk [] [⟨1, [], [], ⟨5, 2⟩, ⟨10, 1⟩, [⟨10, 1⟩], [], [], 0, 0, 0, 0, 0, 0⟩]
          [] [] [] [] [] [] 0 [] false)
        ⟨1, [], [], ⟨4, 3⟩, ⟨10, 1⟩, [⟨10, 1⟩], [], [], 0, 0, 0, 0, 0, 0⟩ [] [] true).2
      = ClusterState.mk [] [⟨1, [], [], ⟨5, 2⟩, ⟨10, 1⟩, [⟨10, 1⟩], [], [], 0, 0, 0, 0, 0, 0⟩]
          [] [] [] [] [] [] 0 [] false := by
  have h := processRegionHeartbeat_stale_iff
    (ClusterState.mk [] [⟨1, [], [], ⟨5, 2⟩, ⟨10, 1⟩, [⟨10, 1⟩], [], [], 0, 0, 0, 0, 0, 0⟩]
      [] [] [] [] [] [] 0 [] false)
    ⟨1, [], [], ⟨4, 3⟩, ⟨10, 1⟩, [⟨10, 1⟩], [], [], 0, 0, 0, 0, 0, 0⟩ [] [] true
  have hs : (processRegionHeartbeat
      (ClusterState.mk [] [⟨1, [], [], ⟨5, 2⟩, ⟨10, 1⟩, [⟨10, 1⟩], [], [], 0, 0, 0, 0, 0, 0⟩]
        [] [] [] [] [] [] 0 [] false)
      ⟨1, [], [], ⟨4, 3⟩, ⟨10, 1⟩, [⟨10, 1⟩], [], [], 0, 0, 0, 0, 0, 0⟩ [] [] true).1.isSome
      = true := by
    rw [h.1]
    left
    exact ⟨⟨1, [], [], ⟨5, 2⟩, ⟨10, 1⟩, [⟨10, 1⟩], [], [], 0, 0, 0, 0, 0, 0⟩, by decide, by decide⟩
  exact ⟨hs, h.2 hs⟩

/-! ## Claim C4: persistence failure on the heartbeat path -/

lemma heartbeatCheck_kv_sc (origin : Option RegionInfo) (overlaps : List RegionInfo)
    (r : RegionInfo) (kv sc inew : Bool)
    (hc : heartbeatCheck origin overlaps r = .ok (kv, sc, inew)) (hkv : kv = true) :
    sc = true := by
  subst hkv
  cases origin with
  | none =>
    simp only [heartbeatCheck] at hc
    cases hfind : overlaps.find? (fun item => decide (r.epoch.version < item.epoch.version)) with
    | some item => exact Except.noConfusion (hfind ▸ hc)
    | none =>
      simp only [hfind, Except.ok.injEq, Prod.mk.injEq] at hc
      exact hc.2.1.symm
  | some o =>
    simp only [heartbeatCheck] at hc
    split at hc
    · simp at hc
    · simp only [Except.ok.injEq] at hc
      rw [heartbeatFlags, Prod.mk.injEq, Prod.mk.injEq] at hc
      obtain ⟨hA, hB, -⟩ := hc
      rw [← hB]
      simp only [Bool.or_eq_true] at hA ⊢
      tauto

lemma updateStoreStatus_regions (s : ClusterState) (id : Nat) :
    (updateStoreStatus s id).regions = s.regions := by
  unfold updateStoreStatus
  cases findStore s.stores id <;> rfl

lemma foldPeers_updateStoreStatus_regions (ps : List Peer) (s : ClusterState) :
    (ps.foldl (fun st p => updateStoreStatus st p.storeId) s).regions = s.regions := by
  induction ps generalizing s with
  | nil => rfl
  | cons p ps ih => rw [List.foldl_cons, ih, updateStoreStatus_regions]

lemma processRegionHeartbeat_ok_regions (s : ClusterState) (region : RegionInfo)
    (w ri : List HotItem) (ok inew : Bool)
    (hc : heartbeatCheck (findRegion s.regions region.id) (getOverlaps s.regions region)
      region = .ok (true, true, inew)) :
    (processRegionHeartbeat s region w ri ok).2.regions = (putRegionM s.regions region).2 := by
  cases horig : findRegion s.regions region.id with
  | none =>
    rw [horig] at hc
    cases inew <;> cases ok <;>
      simp [processRegionHeartbeat, horig, hc, foldPeers_updateStoreStatus_regions]
  | some o =>
    rw [horig] at hc
    cases inew <;> cases ok <;>
      simp [processRegionHeartbeat, horig, hc, foldPeers_updateStoreStatus_regions]

/-- C4: on a heartbeat whose decision sets `save_kv`, a failing
`SaveRegion` write is not propagated: the call still reports success, and
the in-memory region cache is updated exactly as it would have been with a
successful write (the `put_region` result on the incoming region). -/
theorem processRegionHeartbeat_persist_fail (s : ClusterState) (region : RegionInfo)
    (w ri : List HotItem) (kv sc inew : Bool)
    (hc : heartbeatCheck (findRegion s.regions region.id) (getOverlaps s.regions region)
      region = .ok (kv, sc, inew))
    (hkv : kv = true) :
    (processRegionHeartbeat s region w ri false).1 = none ∧
    (processRegionHeartbeat s region w ri false).2.regions
      = (processRegionHeartbeat s region w ri true).2.regions ∧
    (processRegionHeartbeat s region w ri false).2.regions
      = (putRegionM s.regions region).2 := by
  have hsc : sc = true := heartbeatCheck_kv_sc _ _ _ _ _ _ hc hkv
  subst hkv
  subst hsc
  refine ⟨processRegionHeartbeat_ok_fst s region w ri false _ hc, ?_, ?_⟩
  · rw [processRegionHeartbeat_ok_regions s region w ri false inew hc,
        processRegionHeartbeat_ok_regions s region w ri true inew hc]
  · exact processRegionHeartbeat_ok_regions s region w ri false inew hc

/-- C4 witness: a version-bump heartbeat (which sets `save_kv`) evaluated
with a failing metadata write still succeeds and updates the cache. -/
theorem processRegionHeartbeat_persist_fail_witness :
    (processRegionHeartbeat
        (ClusterState.mk [] [⟨1, [], [], ⟨5, 2⟩, ⟨10, 1⟩, [⟨10, 1⟩], [], [], 0, 0, 0, 0, 0, 0⟩]
          [] [] [] [] [] [] 0 [] false)
        ⟨1, [], [], ⟨6, 2⟩, ⟨10, 1⟩, [⟨10, 1⟩], [], [], 0, 0, 0, 0, 0, 0⟩ [] [] false).1 = none ∧
    (processRegionHeartbeat
        (ClusterState.mk [] [⟨1, [], [], ⟨5, 2⟩, ⟨10, 1⟩, [⟨10, 1⟩], [], [], 0, 0, 0, 0, 0, 0⟩]
          [] [] [] [] [] [] 0 [] false)
        ⟨1, [], [], ⟨6, 2⟩, ⟨10, 1⟩, [⟨10, 1⟩], [], [], 0, 0, 0, 0, 0, 0⟩ [] [] false).2.regions
      = (putRegionM
          [⟨1, [], [], ⟨5, 2⟩, ⟨10, 1⟩, [⟨10, 1⟩], [], [], 0, 0, 0, 0, 0, 0⟩]
          ⟨1, [], [], ⟨6, 2⟩, ⟨10, 1⟩, [⟨10, 1⟩], [], [], 0, 0, 0, 0, 0, 0⟩).2 := by
  have h := processRegionHeartbeat_persist_fail
    (ClusterState.mk [] [⟨1, [], [], ⟨5, 2⟩, ⟨10, 1⟩, [⟨10, 1⟩], [], [], 0, 0, 0, 0, 0, 0⟩]
      [] [] [] [] [] [] 0 [] false)
    ⟨1, [], [], ⟨6, 2⟩, ⟨10, 1⟩, [⟨10, 1⟩], [], [], 0, 0, 0, 0, 0, 0⟩ [] [] true true false
    (by rfl) rfl
  exact ⟨h.1, h.2.2⟩

/-! ## Claim C6: `putStore` validation -/

/-- The rejection condition claimed for `putStore`: zero id, unparseable
version, version older than the cluster-wide minimum, address duplicated by
a different non-Tombstone store, or — under strictly-match-label — a
configured location-label key missing from the (merged) labels of the store
being stored, or such a label carrying a key outside the configured list. -/
def putStoreRejectCond (s : ClusterState) (m : StoreMeta) : Prop :=
  m.id = 0 ∨ m.version = none ∨
  (∃ v, m.version = some v ∧ v < s.clusterVersion) ∨
  (∃ t ∈ s.stores, t.meta.state ≠ .tombstone ∧ t.meta.id ≠ m.id ∧
    t.meta.address = m.address) ∨
  (s.strictlyMatchLabel = true ∧
    ((∃ k ∈ s.locationLabels, labelValue (putStoreCandidate s m).meta.labels k = "") ∨
     (∃ l ∈ (putStoreCandidate s m).meta.labels, l.1 ∉ s.locationLabels)))

lemma contains_eq_false_iff (l : List String) (a : String) :
    (l.contains a = false) ↔ a ∉ l := by
  rw [Bool.eq_false_iff]
  exact not_congr List.elem_iff

/-- C6: `putStore` (with a successful metadata write) rejects exactly under
`putStoreRejectCond`, and a rejection leaves the cluster unchanged. -/
theorem putStore_reject_iff (s : ClusterState) (m : StoreMeta) :
    ((putStore s m true).1 ≠ none ↔ putStoreRejectCond s m) ∧
    ((putStore s m true).1 ≠ none → (putStore s m true).2 = s) := by
  unfold putStoreRejectCond
  simp only [putStore]
  by_cases h1 : m.id = 0
  · rw [if_pos h1]
    exact ⟨iff_of_true (by simp) (Or.inl h1), fun _ => rfl⟩
  · rw [if_neg h1]
    cases hv : m.version with
    | none =>
      exact ⟨iff_of_true (by simp) (Or.inr (Or.inl rfl)), fun _ => rfl⟩
    | some v =>
      dsimp only
      by_cases h2 : isCompatibleVersion s.clusterVersion v = true
      · rw [if_neg (by simp [h2])]
        by_cases h3 : (s.stores.any fun t =>
            !(t.meta.state == StoreState.tombstone) && t.meta.id != m.id &&
              t.meta.address == m.address) = true
        · rw [if_pos h3]
          refine ⟨iff_of_true (by simp) ?_, fun _ => rfl⟩
          simp only [List.any_eq_true, Bool.and_eq_true, Bool.not_eq_true',
            beq_eq_false_iff_ne, bne_iff_ne, beq_iff_eq] at h3
          obtain ⟨t, ht, ⟨hts, hne⟩, haddr⟩ := h3
          exact Or.inr (Or.inr (Or.inr (Or.inl ⟨t, ht, hts, hne, haddr⟩)))
        · rw [if_neg h3]
          by_cases h4 : (s.strictlyMatchLabel && s.locationLabels.any fun k =>
              labelValue (putStoreCandidate s m).meta.labels k == "") = true
          · rw [if_pos h4]
            refine ⟨iff_of_true (by simp) ?_, fun _ => rfl⟩
            simp only [Bool.and_eq_true, List.any_eq_true, beq_iff_eq] at h4
            exact Or.inr (Or.inr (Or.inr (Or.inr ⟨h4.1, Or.inl h4.2⟩)))
          · rw [if_neg h4]
            by_cases h5 : (s.strictlyMatchLabel &&
                (putStoreCandidate s m).meta.labels.any fun l =>
                  !(s.locationLabels.contains l.1)) = true
            · rw [if_pos h5]
              refine ⟨iff_of_true (by simp) ?_, fun _ => rfl⟩
              simp only [Bool.and_eq_true, List.any_eq_true, Bool.not_eq_true',
                contains_eq_false_iff] at h5
              exact Or.inr (Or.inr (Or.inr (Or.inr ⟨h5.1, Or.inr h5.2⟩)))
            · rw [if_neg h5]
              constructor
              · refine iff_of_false (by simp [putStoreLocked]) ?_
                rintro (hc | hc | ⟨v', hv', hlt⟩ | ⟨t, ht, hts, hne, haddr⟩ | ⟨hstrict, hlab⟩)
                · exact h1 hc
                · cases hc
                · injection hv' with hv'
                  subst hv'
                  simp only [isCompatibleVersion, decide_eq_true_eq] at h2
                  exact absurd hlt (not_lt.mpr h2)
                · apply h3
                  simp only [List.any_eq_true, Bool.and_eq_true, Bool.not_eq_true',
                    beq_eq_false_iff_ne, bne_iff_ne, beq_iff_eq]
                  exact ⟨t, ht, ⟨hts, hne⟩, haddr⟩
                · rcases hlab with hmiss | hextra
                  · apply h4
                    simp only [Bool.and_eq_true, List.any_eq_true, beq_iff_eq]
                    exact ⟨hstrict, hmiss⟩
                  · apply h5
                    simp only [Bool.and_eq_true, List.any_eq_true, Bool.not_eq_true',
                      contains_eq_false_iff]
                    exact ⟨hstrict, hextra⟩
              · intro hcon
                simp [putStoreLocked] at hcon
      · have hb : isCompatibleVersion s.clusterVersion v = false :=
          Bool.eq_false_iff.mpr h2
        rw [if_pos (by rw [hb]; rfl)]
        refine ⟨iff_of_true (by simp) ?_, fun _ => rfl⟩
        refine Or.inr (Or.inr (Or.inl ⟨v, rfl, ?_⟩))
        simp only [isCompatibleVersion, decide_eq_true_eq] at h2
        exact Nat.lt_of_not_le h2

/-- A cluster configured with `location-labels = ["zone","rack"]` and
`strictly-match-label = true`. -/
def strictCluster : ClusterState :=
  ClusterState.mk [] [] [] [] [] [] [] [] 0 ["zone", "rack"] true

/-- C6 witness: under strict label matching, a store carrying only the
`zone` label is rejected without mutation, and one carrying both configured
labels is accepted. -/
theorem putStore_reject_iff_witness :
    (putStore strictCluster ⟨1, "a1", some 0, .up, [("zone", "z1")], .performance⟩ true).1
      ≠ none ∧
    (putStore strictCluster ⟨1, "a1", some 0, .up, [("zone", "z1")], .performance⟩ true).2
      = strictCluster ∧
    (putStore strictCluster
        ⟨1, "a1", some 0, .up, [("zone", "z1"), ("rack", "r1")], .performance⟩ true).1
      = none := by
  have h1 := putStore_reject_iff strictCluster
    ⟨1, "a1", some 0, .up, [("zone", "z1")], .performance⟩
  have hrej : (putStore strictCluster
      ⟨1, "a1", some 0, .up, [("zone", "z1")], .performance⟩ true).1 ≠ none := by
    rw [h1.1]
    refine Or.inr (Or.inr (Or.inr (Or.inr ⟨rfl, Or.inl ⟨"rack", by decide, by decide⟩⟩)))
  exact ⟨hrej, h1.2 hrej, by decide⟩

/-! ## Claim C2: the `Schedule` tier split -/

lemma partitionStores_go (stores : List Store) (a b : List (Option Store)) :
    stores.foldl
      (fun acc store =>
        if store.meta.storeType = .storage then (acc.1 ++ [some store], acc.2)
        else if store.meta.storeType = .performance then (acc.1, acc.2 ++ [some store])
        else (acc.1, acc.2 ++ [some store]))
      (a, b)
    = (a ++ (stores.filter (fun st => st.meta.storeType == .storage)).map some,
       b ++ (stores.filter (fun st => !(st.meta.storeType == .storage))).map some) := by
  induction stores generalizing a b with
  | nil => simp
  | cons st rest ih =>
    rw [List.foldl_cons]
    by_cases hs : st.meta.storeType = .storage
    · rw [if_pos hs, ih]
      simp [List.filter_cons, hs]
    · rw [if_neg hs, ite_self, ih]
      simp [List.filter_cons, hs]

lemma partitionStores_eq (stores : List Store) :
    partitionStores stores =
      (List.replicate stores.length none ++
        (stores.filter (fun st => st.meta.storeType == .storage)).map some,
       List.replicate stores.length none ++
        (stores.filter (fun st => !(st.meta.storeType == .storage))).map some) := by
  unfold partitionStores
  exact partitionStores_go stores _ _

/-- A store of a type that is neither Performance nor Storage. -/
def otherStore : Store := newStoreInfo ⟨7, "a7", some 1, .up, [], .other⟩

/-- C2 counterexample: the claim puts every non-Performance store in the
Storage tier, but the code's `Schedule` puts a store whose type is neither
Performance nor Storage in the Performance tier and not the Storage tier. -/
theorem partitionStores_other_type_counterexample :
    otherStore ∈ (partitionStoresClaim [otherStore]).1 ∧
    some otherStore ∉ (partitionStores [otherStore]).1 ∧
    some otherStore ∈ (partitionStores [otherStore]).2 := by
  decide

/-- C2 (amended): `Schedule` allocates each tier with one `none`
placeholder per store (the `make`+`append` slices) and classifies every
store of type Storage into the storage tier and every store of any other
type — Performance included — into the performance tier; it then tries
`scheduleImpl(include = storage tier, excluded = performance tier)` first,
returns that operator when one is produced, and otherwise returns the
swapped call applied to the hits state threaded out of the first call. -/
theorem balanceRegionSchedule_structure (env : SchedEnv) (h : HitsState) (now : Nat) :
    partitionStores env.stores =
      (List.replicate env.stores.length none ++
        (env.stores.filter (fun st => st.meta.storeType == .storage)).map some,
       List.replicate env.stores.length none ++
        (env.stores.filter (fun st => !(st.meta.storeType == .storage))).map some) ∧
    (∀ op h1,
      scheduleImpl env (partitionStores env.stores).1 (partitionStores env.stores).2 h now
        = (some op, h1) →
      balanceRegionSchedule env h now = (some op, h1)) ∧
    (∀ h1,
      scheduleImpl env (partitionStores env.stores).1 (partitionStores env.stores).2 h now
        = (none, h1) →
      balanceRegionSchedule env h now
        = scheduleImpl env (partitionStores env.stores).2 (partitionStores env.stores).1
            h1 now) := by
  refine ⟨partitionStores_eq env.stores, ?_, ?_⟩
  · intro op h1 he
    simp only [balanceRegionSchedule, he]
  · intro h1 he
    simp only [balanceRegionSchedule, he]

/-- A scheduler environment whose source selector never finds a store. -/
def envNoSource : SchedEnv :=
  { stores := []
    maxReplicas := 3
    isRegionHot := fun _ => false
    randPendingRegion := fun _ _ => none
    randFollowerRegion := fun _ _ => none
    randLeaderRegion := fun _ _ => none
    selectSource := fun _ _ => none
    getStore := fun _ => none
    selectBestReplacement := fun _ _ _ _ => 0
    shouldBalance := fun _ _ _ => true
    allocPeer := fun _ => none
    createOpOk := true }

/-- C2 (amended) witness: when the first `scheduleImpl` call yields no
operator, `Schedule` falls through to the swapped call. -/
theorem balanceRegionSchedule_structure_witness :
    balanceRegionSchedule envNoSource [] 0
      = scheduleImpl envNoSource (partitionStores envNoSource.stores).2
          (partitionStores envNoSource.stores).1 [] 0 := by
  have h := balanceRegionSchedule_structure envNoSource [] 0
  exact h.2.2 [] rfl

/-! ## Claim C7: hot regions are never scheduled -/

lemma transferPeer_some_regionId (env : SchedEnv) (region : RegionInfo) (oldPeer : Peer)
    (ex : List (Option Store)) (h : HitsState) (now : Nat) (op : Operator)
    (h1 : HitsState)
    (he : transferPeer env region oldPeer ex h now = (some op, h1)) :
    op.opRegionId = region.id := by
  simp only [transferPeer] at he
  split at he
  · exact Option.noConfusion (congrArg Prod.fst he)
  · split at he
    · exact Option.noConfusion (congrArg Prod.fst he)
    · split at he
      · exact Option.noConfusion (congrArg Prod.fst he)
      · split at he
        · have hop := congrArg Prod.fst he
          simp only at hop
          injection hop with hop
          rw [← hop]
        · exact Option.noConfusion (congrArg Prod.fst he)

lemma scheduleRetry_some (env : SchedEnv) (source : Store) (ex : List (Option Store))
    (now : Nat) (h : HitsState) (idx : List Nat) (op : Operator) (h1 : HitsState)
    (he : scheduleRetry env source ex now h idx = (some op, h1)) :
    ∃ i r, pickRegion env source.meta.id i = some r ∧
      r.peers.length = env.maxReplicas ∧ env.isRegionHot r = false ∧
      op.opRegionId = r.id := by
  induction idx generalizing h with
  | nil => simp [scheduleRetry] at he
  | cons i rest ih =>
    rw [scheduleRetry] at he
    cases hp : pickRegion env source.meta.id i with
    | none =>
      rw [hp] at he
      obtain ⟨j, r, hr⟩ := ih _ he
      exact ⟨j, r, hr⟩
    | some region =>
      rw [hp] at he
      dsimp only at he
      by_cases hlen : region.peers.length ≠ env.maxReplicas
      · rw [if_pos hlen] at he
        obtain ⟨j, r, hr⟩ := ih _ he
        exact ⟨j, r, hr⟩
      · rw [if_neg hlen] at he
        by_cases hhot : env.isRegionHot region = true
        · rw [if_pos hhot] at he
          obtain ⟨j, r, hr⟩ := ih _ he
          exact ⟨j, r, hr⟩
        · rw [if_neg hhot] at he
          cases ht : transferPeer env region (getStorePeer region source.meta.id) ex h now with
          | mk o hh =>
            rw [ht] at he
            cases o with
            | some op' =>
              simp only [Prod.mk.injEq] at he
              obtain ⟨hop, -⟩ := he
              injection hop with hop
              subst hop
              exact ⟨i, region, hp, not_ne_iff.mp hlen, Bool.eq_false_iff.mpr hhot,
                transferPeer_some_regionId env region _ ex h now _ hh ht⟩
            | none =>
              obtain ⟨j, r, hr⟩ := ih _ he
              exact ⟨j, r, hr⟩

lemma scheduleImpl_some (env : SchedEnv) (inc ex : List (Option Store))
    (h : HitsState) (now : Nat) (op : Operator) (h1 : HitsState)
    (he : scheduleImpl env inc ex h now = (some op, h1)) :
    ∃ sid i r, pickRegion env sid i = some r ∧
      r.peers.length = env.maxReplicas ∧ env.isRegionHot r = false ∧
      op.opRegionId = r.id := by
  simp only [scheduleImpl] at he
  cases hs : env.selectSource inc (buildSourceFilter env.stores h now).1 with
  | none =>
    rw [hs] at he
    exact Option.noConfusion (congrArg Prod.fst he)
  | some source =>
    rw [hs] at he
    obtain ⟨i, r, hr⟩ := scheduleRetry_some env source ex now _ _ op h1 he
    exact ⟨source.meta.id, i, r, hr⟩

/-- C7: the balance-region scheduler never emits an operator for a hot
region — any operator it returns was built from a picked region that the
hot-region test rejected as not hot (and that had a normal replica count) —
so a `Schedule` call in which every pickable region is hot returns no
operator. -/
theorem balanceRegionSchedule_no_hot (env : SchedEnv) (h : HitsState) (now : Nat) :
    (∀ op h1, balanceRegionSchedule env h now = (some op, h1) →
      ∃ sid i r, pickRegion env sid i = some r ∧
        r.peers.length = env.maxReplicas ∧ env.isRegionHot r = false ∧
        op.opRegionId = r.id) ∧
    ((∀ sid i r, pickRegion env sid i = some r → env.isRegionHot r = true) →
      (balanceRegionSchedule env h now).1 = none) := by
  have hmain : ∀ op h1, balanceRegionSchedule env h now = (some op, h1) →
      ∃ sid i r, pickRegion env sid i = some r ∧
        r.peers.length = env.maxReplicas ∧ env.isRegionHot r = false ∧
        op.opRegionId = r.id := by
    intro op h1 he
    simp only [balanceRegionSchedule] at he
    cases hfirst : scheduleImpl env (partitionStores env.stores).1
        (partitionStores env.stores).2 h now with
    | mk o hh =>
      rw [hfirst] at he
      cases o with
      | some op' =>
        simp only [Prod.mk.injEq] at he
        obtain ⟨hop, -⟩ := he
        injection hop with hop
        subst hop
        exact scheduleImpl_some env _ _ h now op' hh hfirst
      | none =>
        exact scheduleImpl_some env _ _ hh now op h1 he
  refine ⟨hmain, ?_⟩
  intro hall
  cases hres : balanceRegionSchedule env h now with
  | mk o hh =>
    cases o with
    | none => rfl
    | some op =>
      obtain ⟨sid, i, r, hp, -, hhot, -⟩ := hmain op hh hres
      rw [hall sid i r hp] at hhot
      cases hhot

/-- A scheduler environment in which every pickable region is hot. -/
def envAllHot : SchedEnv :=
  { stores := [newStoreInfo ⟨1, "a1", some 1, .up, [], .storage⟩]
    maxReplicas := 1
    isRegionHot := fun _ => true
    randPendingRegion := fun _ _ =>
      some ⟨5, [], [], ⟨1, 1⟩, ⟨10, 1⟩, [⟨10, 1⟩], [], [], 0, 0, 0, 0, 0, 0⟩
    randFollowerRegion := fun _ _ => none
    randLeaderRegion := fun _ _ => none
    selectSource := fun _ _ => some (newStoreInfo ⟨1, "a1", some 1, .up, [], .storage⟩)
    getStore := fun _ => some (newStoreInfo ⟨1, "a1", some 1, .up, [], .storage⟩)
    selectBestReplacement := fun _ _ _ _ => 2
    shouldBalance := fun _ _ _ => true
    allocPeer := fun _ => some 99
    createOpOk := true }

/-- C7 witness: with every pickable region hot, `Schedule` returns no
operator. -/
theorem balanceRegionSchedule_no_hot_witness :
    (balanceRegionSchedule envAllHot [] 0).1 = none :=
  (balanceRegionSchedule_no_hot envAllHot [] 0).2 (fun _ _ _ _ => rfl)

/-! ## Claim C8: the source cooldown filter -/

/-- A sequence of cooldown `put(source, nil)` events at the given times:
one event per time a source store was selected during a retry that did not
produce an operator. -/
def applyPuts (h : HitsState) (src : Store) (times : List Nat) : HitsState :=
  times.foldl (fun acc t => hitsPut acc hitsStoreTTL t (some src) none) h

lemma applyPuts_replicate_zero (src : Store) (c n : Nat) :
    applyPuts [((src.meta.id, none), ⟨0, c⟩)] src (List.replicate n 0)
      = [((src.meta.id, none), ⟨0, c + n⟩)] := by
  induction n generalizing c with
  | zero => simp [applyPuts]
  | succ n ih =>
    rw [List.replicate_succ]
    unfold applyPuts at ih ⊢
    rw [List.foldl_cons]
    have hstep : hitsPut [((src.meta.id, none), ⟨0, c⟩)] hitsStoreTTL 0 (some src) none
        = [((src.meta.id, none), ⟨0, c + 1⟩)] := by
      simp [hitsPut, hitsGetKey, hitsLookup, hitsAssign, hitsStoreTTL, List.find?_cons]
    rw [hstep, ih]
    have harith : c + 1 + n = c + (n + 1) := by omega
    rw [harith]

lemma applyPuts_count (src : Store) (n : Nat) :
    applyPuts [] src (List.replicate (n + 1) 0)
      = [((src.meta.id, none), ⟨0, n⟩)] := by
  rw [List.replicate_succ]
  unfold applyPuts
  rw [List.foldl_cons]
  have hstart : hitsPut [] hitsStoreTTL 0 (some src) none
      = [((src.meta.id, none), ⟨0, 0⟩)] := rfl
  rw [hstart]
  have hrest := applyPuts_replicate_zero src 0 n
  unfold applyPuts at hrest
  rw [hrest, Nat.zero_add]

lemma hitsFilter_single_eval (src : Store) (m : Nat) :
    (hitsFilter [((src.meta.id, none), ⟨0, m⟩)] hitsStoreTTL hitsStoreCountThreshold 0
      (some src) none).1 = decide (hitsStoreCountThreshold ≤ m) := by
  unfold hitsFilter hitsGetKey
  simp [hitsLookup, hitsStoreTTL]
  by_cases hm : hitsStoreCountThreshold ≤ m
  · rw [if_pos hm]; simp [hm]
  · rw [if_neg hm]; simp [hm]

/-- The concrete store used in the C8 counterexample and witness. -/
def cooldownStore : Store := newStoreInfo ⟨1, "a1", some 1, .up, [], .performance⟩

/-- C8 counterexample: after exactly `hits_threshold = 300` selections
(cooldown `put` events, all within the TTL, never producing an operator)
the claim says the filter rejects the store, but it passes: the first `put`
creates the record with count `0`, so the stored count is `299 < 300`. -/
theorem hitsFilter_at_threshold_passes :
    (hitsFilter (applyPuts [] cooldownStore (List.replicate hitsStoreCountThreshold 0))
        hitsStoreTTL hitsStoreCountThreshold 0 (some cooldownStore) none).1 = false := by
  have h := applyPuts_count cooldownStore 299
  rw [show hitsStoreCountThreshold = 299 + 1 from rfl, h]
  decide

/-- C8 (amended): the cooldown filter rejects a store as source iff the
store's record was refreshed within `hits_ttl` and its count has reached
`hits_threshold`; since `put` creates the record with count `0` and
increments it on each later put inside the TTL, a store selected `n ≥ 1`
times as a fruitless source (all selections within the TTL) is rejected iff
`n ≥ hits_threshold + 1 = 301`; `hits_ttl` is 5 minutes and
`hits_threshold = 30 × retry_limit` with `retry_limit = 10`. -/
theorem hitsFilter_threshold_offset (src : Store) (n : Nat) (hn : 1 ≤ n) :
    hitsStoreCountThreshold = 30 * balanceRegionRetryLimit ∧
    balanceRegionRetryLimit = 10 ∧
    hitsStoreTTL = 5 * 60 * 1000 ∧
    ((hitsFilter (applyPuts [] src (List.replicate n 0)) hitsStoreTTL
        hitsStoreCountThreshold 0 (some src) none).1 = true
      ↔ hitsStoreCountThreshold + 1 ≤ n) := by
  refine ⟨rfl, rfl, rfl, ?_⟩
  obtain ⟨m, rfl⟩ : ∃ m, n = m + 1 := ⟨n - 1, by omega⟩
  rw [applyPuts_count src m, hitsFilter_single_eval src m]
  simp only [decide_eq_true_eq, hitsStoreCountThreshold, balanceRegionRetryLimit]
  omega

/-- C8 (amended) witness: 301 fruitless selections within the TTL trigger
the cooldown. -/
theorem hitsFilter_threshold_offset_witness :
    (hitsFilter (applyPuts [] cooldownStore (List.replicate 301 0)) hitsStoreTTL
        hitsStoreCountThreshold 0 (some cooldownStore) none).1 = true := by
  rw [(hitsFilter_threshold_offset cooldownStore 301 (by omega)).2.2.2]
  decide
